import Mathlib

/-!
Shallow embedding of `src/asignals/signal.py` (class `Signal`).

The Python class keeps a list `_callbacks` of async callables guarded by an
`asyncio.Lock`.  Callables are stored by reference: Python's `in` / `remove`
on a list of plain function objects compare with `==`, which for function
objects is reference identity.  We therefore model a callback handle as an
opaque identity token (`Nat`) and keep the handle's behaviour in a separate
environment `env : Nat → CallbackBeh α`, mirroring the fact that the registry
stores references while the behaviour lives at the referent.

The `asyncio.Lock` makes every registry operation (and the snapshot step of
`emit`) atomic with respect to the others; we model this by making each
operation a pure atomic state transformer on `Signal`.

`Signal.emit` in the source is:

    async with self._lock:
        tasks = (create_task(callback(*args)) for callback in self._callbacks)
    await gather(*tasks)

The generator is consumed synchronously when `gather(*tasks)` unpacks it
(there is no suspension point between releasing the lock and that unpacking,
since `Lock.__aexit__` never awaits anything pending), so `create_task` is
called for exactly the entries of `_callbacks` as of the locked region, in
list order, before any callback body gets to run.  Hence the snapshot is the
registry content at emission start, and every snapshot entry gets a task.

`asyncio.gather` with its default `return_exceptions=False` (per the asyncio
documentation): if no task raises, it waits until all tasks are done; if some
task raises, the first raised exception is immediately propagated to the
awaiting coroutine, and the other tasks are NOT cancelled — they keep running.
We model this with a discrete clock: each invocation has a duration
(`dur args` scheduler rounds until it completes or raises).  `emit` resumes at
the maximum duration when nothing fails, and at the earliest failing
invocation's duration otherwise; `pending` lists the sibling invocations still
running at that moment.

A callback body may itself mutate the registry (connect / disconnect /
disconnect_all on the same signal, reentrantly through the guarded
operations); we record those mutations as a list of `RegOp` per invocation and
apply them, invocation by invocation in scheduling order (one admissible
interleaving of the guarded critical sections), to obtain the registry state
after the emission has fully settled.
-/

/-- A registry mutation a callback may perform on its own signal while it
runs (each goes through the corresponding guarded method of the source). -/
inductive RegOp where
  | connect (c : Nat)
  | disconnect (c : Nat)
  | disconnectAll
  deriving DecidableEq, Repr

/-- Behaviour of the callable a handle refers to, per argument tuple:
whether the coroutine raises, how many scheduler rounds it runs before
completing or raising, and which registry mutations it performs while
running. -/
structure CallbackBeh (α : Type) where
  fails : α → Bool
  dur : α → Nat
  ops : α → List RegOp

/-- State of a `Signal`: the `_callbacks` list, holding handle identity tokens in
insertion order.  The `_lock` is represented by the atomicity of each
operation. -/
structure Signal where
  callbacks : List Nat
  deriving DecidableEq, Repr

/-- Embeds `Signal.__init__`: empty registry. -/
def Signal.init : Signal := { callbacks := [] }

/-- Embeds `Signal.connect`: `if callback not in self._callbacks:
self._callbacks.append(callback)`. -/
def Signal.connect (s : Signal) (c : Nat) : Signal :=
  if c ∉ s.callbacks then { s with callbacks := s.callbacks ++ [c] } else s

/-- Embeds `Signal.disconnect`: `if callback in self._callbacks:
self._callbacks.remove(callback)` (removes the first occurrence). -/
def Signal.disconnect (s : Signal) (c : Nat) : Signal :=
  if c ∈ s.callbacks then { s with callbacks := s.callbacks.erase c } else s

/-- Embeds `Signal.disconnect_all`: `self._callbacks.clear()`. -/
def Signal.disconnect_all (s : Signal) : Signal := { s with callbacks := [] }

/-- Embeds `Signal.__len__`: `len(self._callbacks)`. -/
def Signal.len (s : Signal) : Nat := s.callbacks.length

/-- Embeds `Signal.__bool__`: `len(self._callbacks) > 0`. -/
def Signal.toBool (s : Signal) : Bool := decide (s.callbacks.length > 0)

/-- Embeds `Signal.__contains__`: `callback in self._callbacks`. -/
def Signal.containsCb (s : Signal) (c : Nat) : Bool := s.callbacks.contains c

/-- Apply one registry mutation through the corresponding source method. -/
def Signal.applyOp (s : Signal) : RegOp → Signal
  | .connect c => s.connect c
  | .disconnect c => s.disconnect c
  | .disconnectAll => s.disconnect_all

/-- Apply the registry mutations one invocation performed, in order. -/
def Signal.applyOps (s : Signal) (l : List RegOp) : Signal :=
  l.foldl Signal.applyOp s

/-- Registry state once every invocation of the emission has run: the
mutations of each snapshot entry, applied in scheduling order. -/
def Signal.settle {α : Type} (env : Nat → CallbackBeh α) (args : α)
    (snapshot : List Nat) (s : Signal) : Signal :=
  snapshot.foldl (fun st c => st.applyOps ((env c).ops args)) s

/-- Maximum of a list of durations (0 when empty: `gather()` of no tasks
returns at once). -/
def listMax (l : List Nat) : Nat := l.foldl max 0

/-- Minimum of a nonempty list of durations (default `d` when empty). -/
def listMinD (l : List Nat) (d : Nat) : Nat :=
  match l with
  | [] => d
  | x :: xs => xs.foldl min x

/-- Observable outcome of one `emit` call. -/
structure EmitResult (α : Type) where
  /-- The tasks created, in scheduling order: `(handle, argument tuple)`. -/
  invoked : List (Nat × α)
  /-- Registry state after every invocation of this emission has settled. -/
  post : Signal
  /-- Holds `true` iff the `await gather` returns normally (no callback raised). -/
  ok : Bool
  /-- Scheduler round at which `emit` returns or raises. -/
  returnTime : Nat
  /-- Snapshot entries whose invocations are still running when `emit`
  returns or raises (they are never cancelled and keep running). -/
  pending : List Nat

/-- Embeds `Signal.emit`: takes the snapshot under the lock, creates one task per
snapshot entry with exactly the emitted arguments, then awaits
`gather(*tasks)` with asyncio's default semantics (see module comment). -/
def Signal.emit {α : Type} (env : Nat → CallbackBeh α) (s : Signal)
    (args : α) : EmitResult α :=
  let snapshot := s.callbacks
  let failing := snapshot.filter (fun c => (env c).fails args)
  let rt :=
    if failing.isEmpty then listMax (snapshot.map (fun c => (env c).dur args))
    else listMinD (failing.map (fun c => (env c).dur args)) 0
  { invoked := snapshot.map (fun c => (c, args))
    post := Signal.settle env args snapshot s
    ok := failing.isEmpty
    returnTime := rt
    pending := snapshot.filter (fun c => rt < (env c).dur args) }

/-- A top-level operation on one signal, for reasoning about arbitrary
operation sequences (an `emit` step moves the registry to its settled
post-state). -/
inductive SigOp (α : Type) where
  | connect (c : Nat)
  | disconnect (c : Nat)
  | disconnectAll
  | emit (env : Nat → CallbackBeh α) (args : α)

/-- Apply one top-level operation. -/
def Signal.applySigOp {α : Type} (s : Signal) : SigOp α → Signal
  | .connect c => s.connect c
  | .disconnect c => s.disconnect c
  | .disconnectAll => s.disconnect_all
  | .emit env args => (s.emit env args).post

/-- Run a sequence of top-level operations. -/
def Signal.runOps {α : Type} (s : Signal) (l : List (SigOp α)) : Signal :=
  l.foldl Signal.applySigOp s

/-! ### Basic lemmas about the registry operations -/

theorem Signal.connect_of_mem {s : Signal} {c : Nat} (h : c ∈ s.callbacks) :
    s.connect c = s := by
  simp [Signal.connect, h]

theorem Signal.connect_callbacks_of_not_mem {s : Signal} {c : Nat}
    (h : c ∉ s.callbacks) : (s.connect c).callbacks = s.callbacks ++ [c] := by
  simp [Signal.connect, h]

theorem Signal.mem_connect_self (s : Signal) (c : Nat) :
    c ∈ (s.connect c).callbacks := by
  by_cases h : c ∈ s.callbacks <;> simp [Signal.connect, h]

theorem Signal.nodup_connect (s : Signal) (c : Nat) (h : s.callbacks.Nodup) :
    (s.connect c).callbacks.Nodup := by
  by_cases hc : c ∈ s.callbacks
  · simpa [Signal.connect, hc] using h
  · simp [Signal.connect, hc, List.nodup_append, h]

theorem Signal.nodup_disconnect (s : Signal) (c : Nat) (h : s.callbacks.Nodup) :
    (s.disconnect c).callbacks.Nodup := by
  by_cases hc : c ∈ s.callbacks
  · simpa [Signal.disconnect, hc] using h.erase c
  · simpa [Signal.disconnect, hc] using h

theorem Signal.nodup_applyOp (s : Signal) (op : RegOp) (h : s.callbacks.Nodup) :
    (s.applyOp op).callbacks.Nodup := by
  cases op with
  | connect c => exact s.nodup_connect c h
  | disconnect c => exact s.nodup_disconnect c h
  | disconnectAll => simp [Signal.applyOp, Signal.disconnect_all]

theorem Signal.nodup_applyOps (s : Signal) (l : List RegOp)
    (h : s.callbacks.Nodup) : (s.applyOps l).callbacks.Nodup := by
  induction l generalizing s with
  | nil => simpa [Signal.applyOps] using h
  | cons op rest ih =>
      simpa [Signal.applyOps, List.foldl_cons] using ih _ (s.nodup_applyOp op h)

theorem Signal.nodup_settle {α : Type} (env : Nat → CallbackBeh α) (args : α)
    (snapshot : List Nat) (s : Signal) (h : s.callbacks.Nodup) :
    (Signal.settle env args snapshot s).callbacks.Nodup := by
  induction snapshot generalizing s with
  | nil => simpa [Signal.settle] using h
  | cons c rest ih =>
      simpa [Signal.settle, List.foldl_cons] using
        ih _ (s.nodup_applyOps ((env c).ops args) h)

theorem Signal.nodup_applySigOp {α : Type} (s : Signal) (op : SigOp α)
    (h : s.callbacks.Nodup) : (s.applySigOp op).callbacks.Nodup := by
  cases op with
  | connect c => exact s.nodup_connect c h
  | disconnect c => exact s.nodup_disconnect c h
  | disconnectAll => simp [Signal.applySigOp, Signal.disconnect_all]
  | emit env args =>
      simpa [Signal.applySigOp, Signal.emit] using
        Signal.nodup_settle env args s.callbacks s h

theorem Signal.nodup_runOps {α : Type} (s : Signal) (l : List (SigOp α))
    (h : s.callbacks.Nodup) : (s.runOps l).callbacks.Nodup := by
  induction l generalizing s with
  | nil => simpa [Signal.runOps] using h
  | cons op rest ih =>
      simpa [Signal.runOps, List.foldl_cons] using ih _ (s.nodup_applySigOp op h)

theorem Signal.settle_of_no_ops {α : Type} (env : Nat → CallbackBeh α) (args : α)
    (snapshot : List Nat) (s : Signal)
    (h : ∀ c ∈ snapshot, (env c).ops args = []) :
    Signal.settle env args snapshot s = s := by
  induction snapshot generalizing s with
  | nil => rfl
  | cons c rest ih =>
      have hc : (env c).ops args = [] := h c (List.mem_cons_self c rest)
      have hrest : ∀ x ∈ rest, (env x).ops args = [] :=
        fun x hx => h x (List.mem_cons_of_mem c hx)
      simp [Signal.settle, List.foldl_cons, hc, Signal.applyOps] at *
      exact ih s hrest

/-! ### Claim theorems -/

/-- C3: for every sequence of connect, disconnect, disconnect_all and emit
operations starting from a freshly constructed (empty) Signal, the callbacks
registry never contains two entries that compare equal to each other, and
`count()` (here `Signal.len`) always equals the number of distinct handles
currently registered. -/
theorem registry_nodup_count_distinct {α : Type} (l : List (SigOp α)) :
    (Signal.init.runOps l).callbacks.Nodup ∧
    (Signal.init.runOps l).len = (Signal.init.runOps l).callbacks.dedup.length := by
  have h : (Signal.init.runOps l).callbacks.Nodup :=
    Signal.nodup_runOps Signal.init l (by simp [Signal.init])
  refine ⟨h, ?_⟩
  rw [List.dedup_eq_self.mpr h]
  rfl

/-- C5: callback handles are compared by identity token, never by behaviour:
connecting the same handle twice keeps one entry, connecting two distinct
handles with identical behaviour keeps both as distinct entries, disconnect
removes exactly the entry with the given identity, and contains answers by
identity. -/
theorem handles_identity_equality {α : Type} (env : Nat → CallbackBeh α)
    (c1 c2 : Nat) (hne : c1 ≠ c2) (hbeh : env c1 = env c2) :
    ((Signal.init.connect c1).connect c1).callbacks = [c1] ∧
    ((Signal.init.connect c1).connect c2).callbacks = [c1, c2] ∧
    (((Signal.init.connect c1).connect c2).disconnect c1).callbacks = [c2] ∧
    (Signal.init.connect c1).containsCb c2 = false ∧
    (Signal.init.connect c1).containsCb c1 = true := by
  refine ⟨?_, ?_, ?_, ?_, ?_⟩
  · simp [Signal.init, Signal.connect]
  · simp [Signal.init, Signal.connect, hne, Ne.symm hne]
  · simp [Signal.init, Signal.connect, Signal.disconnect, hne, Ne.symm hne,
      List.erase_cons]
  · simp [Signal.init, Signal.connect, Signal.containsCb, (Ne.symm hne)]
  · simp [Signal.init, Signal.connect, Signal.containsCb]

/-- C6: connect of a not-yet-registered handle appends it at the end of the
registry (insertion order preserved), and the snapshot taken by emit schedules
the invocations in exactly that registry order. -/
theorem connect_appends_schedule_order {α : Type} (env : Nat → CallbackBeh α)
    (s : Signal) (c : Nat) (args : α) (h : c ∉ s.callbacks) :
    (s.connect c).callbacks = s.callbacks ++ [c] ∧
    ((s.connect c).emit env args).invoked
      = (s.callbacks ++ [c]).map (fun x => (x, args)) := by
  have hc := Signal.connect_callbacks_of_not_mem h
  exact ⟨hc, by simp [Signal.emit, hc]⟩

/-- C8: disconnect of a handle that is not currently registered is a no-op
that leaves the registry unchanged, and contains of such a handle returns
false. -/
theorem disconnect_absent_noop_contains_false (s : Signal) (c : Nat)
    (h : c ∉ s.callbacks) :
    s.disconnect c = s ∧ s.containsCb c = false := by
  constructor
  · simp [Signal.disconnect, h]
  · simpa [Signal.containsCb] using h

/-- C9: after disconnect_all the signal has `count() == 0`, its boolean query
is false, and a subsequent emit invokes no callbacks. -/
theorem disconnect_all_resets {α : Type} (env : Nat → CallbackBeh α)
    (s : Signal) (args : α) :
    s.disconnect_all.len = 0 ∧ s.disconnect_all.toBool = false ∧
    (s.disconnect_all.emit env args).invoked = [] := by
  refine ⟨rfl, rfl, rfl⟩

/-- C10: for every signal state in which handle `c` is not currently
registered, connect(c) followed by disconnect(c) restores the registry
exactly: same entries, same order. -/
theorem connect_disconnect_roundtrip (s : Signal) (c : Nat)
    (h : c ∉ s.callbacks) : (s.connect c).disconnect c = s := by
  have hc := Signal.connect_callbacks_of_not_mem h
  have hmem : c ∈ (s.connect c).callbacks := Signal.mem_connect_self s c
  cases s with
  | mk l =>
      simp only [Signal.disconnect, hmem, if_pos, hc]
      simp at hc
      simp [Signal.disconnect, hc, List.erase_append_right _ h]

/-- C7: if no callback of the snapshot mutates the registry for these
arguments, the registry after the emission is exactly what it was at the
start — in particular a failing emission (some callback raised) does not
auto-disconnect anything: same entries, same order. -/
theorem callback_failure_frame {α : Type} (env : Nat → CallbackBeh α)
    (s : Signal) (args : α)
    (hops : ∀ c ∈ s.callbacks, (env c).ops args = [])
    (hfail : (s.emit env args).ok = false) :
    (s.emit env args).post = s := by
  simpa [Signal.emit] using Signal.settle_of_no_ops env args s.callbacks s hops

/-- C4: connect is idempotent with respect to duplicate handles: connecting
the same handle twice equals connecting it once, from the empty signal it
yields `count() == 1`, and the handle is invoked exactly once (so at most
once) by a subsequent emission. -/
theorem connect_idempotent_dup {α : Type} (env : Nat → CallbackBeh α)
    (s : Signal) (c : Nat) (args : α) (h : s.callbacks.Nodup) :
    (s.connect c).connect c = s.connect c ∧
    ((Signal.init.connect c).connect c).len = 1 ∧
    (((s.connect c).connect c).emit env args).invoked.countP
      (fun p => p.1 == c) = 1 := by
  have hmem : c ∈ (s.connect c).callbacks := Signal.mem_connect_self s c
  have hidem : (s.connect c).connect c = s.connect c := Signal.connect_of_mem hmem
  refine ⟨hidem, ?_, ?_⟩
  · simp [Signal.init, Signal.connect, Signal.len]
  · rw [hidem]
    have hnd : (s.connect c).callbacks.Nodup := s.nodup_connect c h
    have hcnt : (((s.connect c).emit env args).invoked.countP
        (fun p => p.1 == c)) = (s.connect c).callbacks.countP (fun x => x == c) := by
      show (((s.connect c).callbacks.map (fun x => (x, args))).countP
        (fun p => p.1 == c)) = (s.connect c).callbacks.countP (fun x => x == c)
      rw [List.countP_map]
      rfl
    rw [hcnt]
    exact List.count_eq_one_of_mem hnd hmem

/-- C2: emit invokes exactly the callbacks registered at the moment its
snapshot is taken, each exactly once, in snapshot order, with exactly the
emitted argument values; handles absent from the snapshot get no invocation;
registry mutations performed by the callbacks do not change the current
emission's invocation list but are reflected in the post-state used by
subsequent emissions. -/
theorem emit_snapshot_semantics {α : Type}
    (env : Nat → CallbackBeh α) (s : Signal) (args : α)
    (h : s.callbacks.Nodup) :
    (s.emit env args).invoked = s.callbacks.map (fun c => (c, args)) ∧
    (∀ c ∈ s.callbacks,
      (s.emit env args).invoked.filter (fun p => p.1 == c) = [(c, args)]) ∧
    (∀ c : Nat, c ∉ s.callbacks →
      (s.emit env args).invoked.filter (fun p => p.1 == c) = []) ∧
    (∀ p ∈ (s.emit env args).invoked, p.2 = args) ∧
    (∀ args2 : α, ((s.emit env args).post.emit env args2).invoked
      = (s.emit env args).post.callbacks.map (fun c => (c, args2))) := by
  have hfm : ∀ c : Nat, (s.emit env args).invoked.filter (fun p => p.1 == c)
      = (s.callbacks.filter (fun x => x == c)).map (fun x => (x, args)) := by
    intro c
    show (s.callbacks.map (fun x => (x, args))).filter (fun p => p.1 == c)
        = (s.callbacks.filter (fun x => x == c)).map (fun x => (x, args))
    rw [List.filter_map]
    rfl
  refine ⟨rfl, ?_, ?_, ?_, fun _ => rfl⟩
  · intro c hc
    have hone : s.callbacks.filter (fun x => x == c) = [c] := by
      have h1 : s.callbacks.count c = 1 := List.count_eq_one_of_mem h hc
      calc s.callbacks.filter (fun x => x == c)
          = List.replicate (s.callbacks.count c) c := List.filter_beq s.callbacks c
        _ = [c] := by rw [h1]; rfl
    rw [hfm c, hone]
    rfl
  · intro c hc
    have hnil : s.callbacks.filter (fun x => x == c) = [] := by
      rw [List.filter_eq_nil_iff]
      intro a ha hac
      exact hc ((by simpa using hac) ▸ ha)
    rw [hfm c, hnil]
    rfl
  · intro p hp
    simp only [Signal.emit, List.mem_map] at hp
    obtain ⟨x, _, rfl⟩ := hp
    rfl

/-- Environment for C1: handle 0 raises immediately (duration 0 scheduler
rounds); every other handle succeeds after 5 rounds; no handle mutates the
registry. -/
def envShort : Nat → CallbackBeh Nat := fun c =>
  if c = 0 then { fails := fun _ => true, dur := fun _ => 0, ops := fun _ => [] }
  else { fails := fun _ => false, dur := fun _ => 5, ops := fun _ => [] }

/-- C1 counterexample: with handles 0 (raises at round 0) and 1 (still
running until round 5) registered, emit surfaces the failure at round 0
while the sibling invocation of handle 1 is still pending — `gather` with
`return_exceptions=False` propagates the first exception without waiting for
the remaining tasks, so the claimed "emit does not return or raise while a
sibling invocation is still pending" is false. -/
theorem emit_returns_before_sibling_finishes :
    (((Signal.init.connect 0).connect 1).emit envShort 3).ok = false ∧
    (((Signal.init.connect 0).connect 1).emit envShort 3).returnTime = 0 ∧
    (((Signal.init.connect 0).connect 1).emit envShort 3).pending = [1] := by
  refine ⟨by decide, by decide, by decide⟩

/-- C1 amended: if at least one callback of the snapshot raises, emit
surfaces a failure to its caller (the first exception propagated by
`gather`), and every invocation of the snapshot was scheduled (a task is
created for each entry; siblings are not cancelled) — but emit may surface
the failure while sibling invocations are still pending. -/
theorem emit_failure_surfaced_all_scheduled {α : Type}
    (env : Nat → CallbackBeh α) (s : Signal) (args : α)
    (hfail : ∃ c ∈ s.callbacks, (env c).fails args = true) :
    (s.emit env args).ok = false ∧
    (s.emit env args).invoked = s.callbacks.map (fun c => (c, args)) := by
  refine ⟨?_, rfl⟩
  obtain ⟨c, hc, hf⟩ := hfail
  have hmem : c ∈ s.callbacks.filter (fun x => (env x).fails args) :=
    List.mem_filter.mpr ⟨hc, by simp [hf]⟩
  have hne : s.callbacks.filter (fun x => (env x).fails args) ≠ [] :=
    List.ne_nil_of_mem hmem
  simp [Signal.emit, List.isEmpty_eq_false, hne]

/-! ### Concrete environments and witnesses -/

/-- Benign environment: every handle succeeds instantly and performs no
registry mutation. -/
def envQuiet : Nat → CallbackBeh Nat :=
  fun _ => { fails := fun _ => false, dur := fun _ => 0, ops := fun _ => [] }

/-- Environment where handle 1 disconnects itself during its own invocation
and every other handle does nothing. -/
def envSelfDisc : Nat → CallbackBeh Nat := fun c =>
  if c = 1 then
    { fails := fun _ => false, dur := fun _ => 0,
      ops := fun _ => [RegOp.disconnect 1] }
  else { fails := fun _ => false, dur := fun _ => 0, ops := fun _ => [] }

/-- Witness for the amended C1 at handles `[0, 1]` under `envShort` and
arguments `3`. -/
theorem emit_failure_surfaced_all_scheduled_witness :
    (∃ c ∈ (Signal.mk [0, 1]).callbacks, (envShort c).fails 3 = true) ∧
    (((Signal.mk [0, 1]).emit envShort 3).ok = false ∧
      ((Signal.mk [0, 1]).emit envShort 3).invoked
        = (Signal.mk [0, 1]).callbacks.map (fun c => (c, 3))) :=
  ⟨by decide,
    emit_failure_surfaced_all_scheduled envShort (Signal.mk [0, 1]) 3 (by decide)⟩

/-- Witness for C2 at handles `[0, 1]` where handle 1 disconnects itself
during the emission, with arguments `7`. -/
theorem emit_snapshot_semantics_witness :
    (Signal.mk [0, 1]).callbacks.Nodup ∧
    (((Signal.mk [0, 1]).emit envSelfDisc 7).invoked
        = (Signal.mk [0, 1]).callbacks.map (fun c => (c, 7)) ∧
      (∀ c ∈ (Signal.mk [0, 1]).callbacks,
        ((Signal.mk [0, 1]).emit envSelfDisc 7).invoked.filter
          (fun p => p.1 == c) = [(c, 7)]) ∧
      (∀ c : Nat, c ∉ (Signal.mk [0, 1]).callbacks →
        ((Signal.mk [0, 1]).emit envSelfDisc 7).invoked.filter
          (fun p => p.1 == c) = []) ∧
      (∀ p ∈ ((Signal.mk [0, 1]).emit envSelfDisc 7).invoked, p.2 = 7) ∧
      (∀ args2 : Nat,
        (((Signal.mk [0, 1]).emit envSelfDisc 7).post.emit envSelfDisc
            args2).invoked
          = ((Signal.mk [0, 1]).emit envSelfDisc 7).post.callbacks.map
              (fun c => (c, args2)))) :=
  ⟨by decide, emit_snapshot_semantics envSelfDisc (Signal.mk [0, 1]) 7 (by decide)⟩

/-- Witness for C4 at state `[5]`, handle `3`, arguments `2`. -/
theorem connect_idempotent_dup_witness :
    (Signal.mk [5]).callbacks.Nodup ∧
    (((Signal.mk [5]).connect 3).connect 3 = (Signal.mk [5]).connect 3 ∧
      ((Signal.init.connect 3).connect 3).len = 1 ∧
      ((((Signal.mk [5]).connect 3).connect 3).emit envQuiet 2).invoked.countP
        (fun p => p.1 == 3) = 1) :=
  ⟨by decide, connect_idempotent_dup envQuiet (Signal.mk [5]) 3 2 (by decide)⟩

/-- Witness for C5 at handles `0 ≠ 1` with identical behaviour under
`envQuiet`. -/
theorem handles_identity_equality_witness :
    ((0 : Nat) ≠ 1 ∧ envQuiet 0 = envQuiet 1) ∧
    (((Signal.init.connect 0).connect 0).callbacks = [0] ∧
      ((Signal.init.connect 0).connect 1).callbacks = [0, 1] ∧
      (((Signal.init.connect 0).connect 1).disconnect 0).callbacks = [1] ∧
      (Signal.init.connect 0).containsCb 1 = false ∧
      (Signal.init.connect 0).containsCb 0 = true) :=
  ⟨⟨by decide, rfl⟩, handles_identity_equality envQuiet 0 1 (by decide) rfl⟩

/-- Witness for C6 at state `[4]`, new handle `9`, arguments `1`. -/
theorem connect_appends_schedule_order_witness :
    (9 : Nat) ∉ (Signal.mk [4]).callbacks ∧
    (((Signal.mk [4]).connect 9).callbacks = (Signal.mk [4]).callbacks ++ [9] ∧
      (((Signal.mk [4]).connect 9).emit envQuiet 1).invoked
        = ((Signal.mk [4]).callbacks ++ [9]).map (fun x => (x, 1))) :=
  ⟨by decide, connect_appends_schedule_order envQuiet (Signal.mk [4]) 9 1 (by decide)⟩

/-- Witness for C7 at handles `[0, 1]` under `envShort` (handle 0 raises,
nobody mutates the registry), arguments `3`. -/
theorem callback_failure_frame_witness :
    ((∀ c ∈ (Signal.mk [0, 1]).callbacks, (envShort c).ops 3 = []) ∧
      ((Signal.mk [0, 1]).emit envShort 3).ok = false) ∧
    ((Signal.mk [0, 1]).emit envShort 3).post = Signal.mk [0, 1] :=
  ⟨⟨by decide, by decide⟩,
    callback_failure_frame envShort (Signal.mk [0, 1]) 3 (by decide) (by decide)⟩

/-- Witness for C8 at state `[2]`, absent handle `7`. -/
theorem disconnect_absent_noop_contains_false_witness :
    (7 : Nat) ∉ (Signal.mk [2]).callbacks ∧
    ((Signal.mk [2]).disconnect 7 = Signal.mk [2] ∧
      (Signal.mk [2]).containsCb 7 = false) :=
  ⟨by decide, disconnect_absent_noop_contains_false (Signal.mk [2]) 7 (by decide)⟩

/-- Witness for C10 at state `[1, 2]`, fresh handle `0`. -/
theorem connect_disconnect_roundtrip_witness :
    (0 : Nat) ∉ (Signal.mk [1, 2]).callbacks ∧
    ((Signal.mk [1, 2]).connect 0).disconnect 0 = Signal.mk [1, 2] :=
  ⟨by decide, connect_disconnect_roundtrip (Signal.mk [1, 2]) 0 (by decide)⟩
